import Mathlib

/-!
Shallow embedding of the audio engine of the oshu repository
(src/audio/stream.c and src/audio/pipeline.c), together with theorems
settling the specification claims about it.

The external libraries (ffmpeg's libavformat/libavcodec/libavfilter and
SDL) are collaborators of this code; they are modelled at their
documented interfaces: the demuxer is a finite sequence of read events,
the decoder is a queue of frames fed by packets plus a flush flag, the
filter-graph sink is an arbitrary response trace, and the C library
functions memset/memcpy get their C semantics.
-/

set_option autoImplicit false

namespace Oshu

/-! ### ffmpeg error codes (numeric values from libavutil/error.h) -/

/-- ffmpeg end-of-file error code, FFERRTAG of EOF. -/
def AVERROR_EOF : Int := -541478725

/-- AVERROR(EAGAIN) on Linux: minus errno EAGAIN. -/
def AVERROR_EAGAIN : Int := -11

/-- A representative fatal decoding error code (AVERROR_INVALIDDATA). -/
def AVERROR_INVALIDDATA : Int := -1094995529

/-! ### Stream decoder state (struct oshu_stream, stream.c) -/

/-- A decoded audio frame (AVFrame); the engine only reads its
best-effort timestamp, so that is all we keep. -/
structure AVFrame where
  bestEffortTimestamp : Int
  deriving DecidableEq, Repr

/-- One result of `av_read_frame` on the demuxer: either a read error
(any negative code other than EOF), or a packet belonging to stream
`streamIndex`.  `sendOk` tells whether `avcodec_send_packet` accepts the
packet; on success the packet decodes, eventually, to `frames`
(a `none` entry is a frame slot whose decode fails fatally at
`avcodec_receive_frame` time).  The end of the event list is the end of
the container: `av_read_frame` then returns `AVERROR_EOF` forever. -/
inductive ReadEvent where
  | rerror
  | packet (streamIndex : Int) (sendOk : Bool) (frames : List (Option AVFrame))
  deriving DecidableEq, Repr

/-- The libavcodec decoder: frames already decoded and waiting to be
received, and whether the flush (NULL) packet has been sent. -/
structure Decoder where
  pending : List (Option AVFrame)
  flushed : Bool
  deriving DecidableEq, Repr

/-- `avcodec_receive_frame`: pop a pending frame (rc 0), report a fatal
decode error for a failing slot, and otherwise EAGAIN before the flush
and AVERROR_EOF after it. -/
def avcodec_receive_frame (d : Decoder) : Int × Option AVFrame × Decoder :=
  match d.pending with
  | some f :: rest => (0, some f, { d with pending := rest })
  | none :: rest => (AVERROR_INVALIDDATA, none, { d with pending := rest })
  | [] => if d.flushed then (AVERROR_EOF, none, d) else (AVERROR_EAGAIN, none, d)

/-- struct oshu_stream: the demuxer's remaining events, the decoder,
the selected audio track index, the most recently decoded frame and the
stream's time base (seconds per tick, av_q2d of an AVRational). -/
structure OshuStream where
  events : List ReadEvent
  dec : Decoder
  streamIndex : Int
  frame : Option AVFrame
  timeBase : Rat
  deriving DecidableEq, Repr

/-- Loop body of `next_page` (stream.c:29): read events until one is
relevant.  EOF sends the decoder a NULL packet to flush it (rc 0); a
read error stops with rc -1; a packet of the selected stream is sent to
the decoder (rc -1 when the send fails); other packets are dropped and
the loop continues. -/
def next_page_go (streamIndex : Int) (dec : Decoder) :
    List ReadEvent → List ReadEvent × Decoder × Int
  | [] => ([], { dec with flushed := true }, 0)
  | ReadEvent.rerror :: rest => (rest, dec, -1)
  | ReadEvent.packet idx sendOk frames :: rest =>
    if idx = streamIndex then
      if sendOk then (rest, { dec with pending := dec.pending ++ frames }, 0)
      else (rest, dec, -1)
    else next_page_go streamIndex dec rest

/-- `next_page` (stream.c:29): feed the decoder one page, returning the
updated stream and 0 on success or -1 on error. -/
def next_page (s : OshuStream) : OshuStream × Int :=
  let r := next_page_go s.streamIndex s.dec s.events
  ({ s with events := r.1, dec := r.2.1 }, r.2.2)

/-- `oshu_next_frame` (stream.c:55): receive a frame; on EAGAIN read the
next page and retry; on EOF report AVERROR_EOF; on any other receive
error, or a page error, report -1.  The C loop is given explicit fuel;
`none` means the fuel ran out mid-loop. -/
def oshu_next_frame : Nat → OshuStream → Option (Int × OshuStream)
  | 0, _ => none
  | fuel + 1, s =>
    let r := avcodec_receive_frame s.dec
    if r.1 = 0 then some (0, { s with dec := r.2.2, frame := r.2.1 })
    else if r.1 = AVERROR_EAGAIN then
      let np := next_page { s with dec := r.2.2 }
      if np.2 < 0 then some (-1, np.1) else oshu_next_frame fuel np.1
    else if r.1 = AVERROR_EOF then some (AVERROR_EOF, { s with dec := r.2.2 })
    else some (-1, { s with dec := r.2.2 })

/-- The frames the selected track will still deliver: pending decoded
frames first, then the frames of the remaining sendable packets of the
selected stream (failing frame slots and foreign packets excluded). -/
def eventFrames (streamIndex : Int) : ReadEvent → List AVFrame
  | ReadEvent.rerror => []
  | ReadEvent.packet idx sendOk frames =>
    if idx = streamIndex ∧ sendOk then frames.filterMap id else []

def pendingFrames (d : Decoder) : List AVFrame :=
  d.pending.filterMap id

def futureFrames (s : OshuStream) : List AVFrame :=
  pendingFrames s.dec ++ (s.events.map (eventFrames s.streamIndex)).flatten

/-! ### Structural lemmas about the decode loop -/

/-- Reading pages preserves the sequence of frames the selected track
will still deliver. -/
theorem next_page_go_frames (idx : Int) (dec : Decoder) (evs : List ReadEvent) :
    pendingFrames (next_page_go idx dec evs).2.1 ++
      ((next_page_go idx dec evs).1.map (eventFrames idx)).flatten =
      pendingFrames dec ++ (evs.map (eventFrames idx)).flatten := by
  induction evs with
  | nil => simp [next_page_go, pendingFrames]
  | cons e rest ih =>
    cases e with
    | rerror => simp [next_page_go, eventFrames]
    | packet i ok frames =>
      by_cases hi : i = idx
      · subst hi
        cases ok with
        | false => simp [next_page_go, eventFrames]
        | true =>
          simp [next_page_go, eventFrames, pendingFrames, List.filterMap_append]
      · simp [next_page_go, eventFrames, hi, ih]

theorem next_page_fields (s : OshuStream) :
    (next_page s).1.streamIndex = s.streamIndex ∧
      (next_page s).1.timeBase = s.timeBase ∧
      (next_page s).1.frame = s.frame ∧
      futureFrames (next_page s).1 = futureFrames s := by
  refine ⟨rfl, rfl, rfl, ?_⟩
  have h := next_page_go_frames s.streamIndex s.dec s.events
  simpa [next_page, futureFrames] using h

/-- One step of the decode loop when a good frame is pending. -/
theorem oshu_next_frame_ok (fuel : Nat) (s : OshuStream) (f : AVFrame)
    (rest : List (Option AVFrame)) (hp : s.dec.pending = some f :: rest) :
    oshu_next_frame (fuel + 1) s =
      some (0, { s with dec := { s.dec with pending := rest }, frame := some f }) := by
  rw [oshu_next_frame]
  simp [avcodec_receive_frame, hp]

/-- One step of the decode loop when the pending frame slot fails
fatally at receive time. -/
theorem oshu_next_frame_fatal (fuel : Nat) (s : OshuStream)
    (rest : List (Option AVFrame)) (hp : s.dec.pending = none :: rest) :
    oshu_next_frame (fuel + 1) s =
      some (-1, { s with dec := { s.dec with pending := rest } }) := by
  rw [oshu_next_frame]
  simp [avcodec_receive_frame, hp, AVERROR_INVALIDDATA, AVERROR_EAGAIN, AVERROR_EOF]

/-- One step of the decode loop on a drained, flushed decoder. -/
theorem oshu_next_frame_eof (fuel : Nat) (s : OshuStream)
    (hp : s.dec.pending = []) (hfl : s.dec.flushed = true) :
    oshu_next_frame (fuel + 1) s = some (AVERROR_EOF, s) := by
  rw [oshu_next_frame]
  simp [avcodec_receive_frame, hp, hfl, AVERROR_EAGAIN, AVERROR_EOF]

/-- One step of the decode loop when the decoder wants more input. -/
theorem oshu_next_frame_eagain (fuel : Nat) (s : OshuStream)
    (hp : s.dec.pending = []) (hfl : s.dec.flushed = false) :
    oshu_next_frame (fuel + 1) s =
      (if (next_page s).2 < 0 then some (-1, (next_page s).1)
        else oshu_next_frame fuel (next_page s).1) := by
  rw [oshu_next_frame]
  simp [avcodec_receive_frame, hp, hfl, AVERROR_EAGAIN, AVERROR_EOF]

/-- Everything `oshu_next_frame` guarantees about its result: the time
base, track index and possible return codes; on success the decoded
frame is the head of the track's remaining frames; on any failure the
stored frame and the remaining frames are untouched; end of stream is
reported only from a drained, flushed decoder. -/
theorem oshu_next_frame_spec (fuel : Nat) (s : OshuStream) (rc : Int) (s' : OshuStream)
    (h : oshu_next_frame fuel s = some (rc, s')) :
    s'.timeBase = s.timeBase ∧ s'.streamIndex = s.streamIndex ∧
      (rc = 0 ∨ rc = -1 ∨ rc = AVERROR_EOF) ∧
      (rc = 0 → ∃ f, s'.frame = some f ∧ futureFrames s = f :: futureFrames s') ∧
      (rc ≠ 0 → s'.frame = s.frame ∧ futureFrames s' = futureFrames s) ∧
      (rc = AVERROR_EOF → s'.dec.pending = [] ∧ s'.dec.flushed = true) := by
  induction fuel generalizing s rc s' with
  | zero => simp [oshu_next_frame] at h
  | succ fuel ih =>
    rcases hp : s.dec.pending with - | ⟨f?, rest⟩
    · cases hfl : s.dec.flushed with
      | false =>
        rw [oshu_next_frame_eagain fuel s hp hfl] at h
        obtain ⟨hsi, htb, hfr, hff⟩ := next_page_fields s
        by_cases hneg : (next_page s).2 < 0
        · rw [if_pos hneg] at h
          simp only [Option.some.injEq, Prod.mk.injEq] at h
          obtain ⟨h1, h2⟩ := h
          subst h1; subst h2
          refine ⟨htb, hsi, Or.inr (Or.inl rfl), ?_, fun _ => ⟨hfr, hff⟩, ?_⟩
          · intro h0; exact absurd h0 (by decide)
          · intro heof; exact absurd heof (by decide)
        · rw [if_neg hneg] at h
          obtain ⟨ktb, ksi, krc, k0, kne, keof⟩ := ih (next_page s).1 rc s' h
          refine ⟨ktb.trans htb, ksi.trans hsi, krc, ?_, ?_, keof⟩
          · intro h0
            obtain ⟨f, hf, hrest⟩ := k0 h0
            exact ⟨f, hf, by rw [← hff]; exact hrest⟩
          · intro hne
            obtain ⟨kf, kff⟩ := kne hne
            exact ⟨kf.trans hfr, kff.trans hff⟩
      | true =>
        rw [oshu_next_frame_eof fuel s hp hfl] at h
        simp only [Option.some.injEq, Prod.mk.injEq] at h
        obtain ⟨h1, h2⟩ := h
        subst h1; subst h2
        exact ⟨rfl, rfl, Or.inr (Or.inr rfl),
          fun h0 => absurd h0 (by decide), fun _ => ⟨rfl, rfl⟩,
          fun _ => ⟨hp, hfl⟩⟩
    · cases f? with
      | some f =>
        rw [oshu_next_frame_ok fuel s f rest hp] at h
        simp only [Option.some.injEq, Prod.mk.injEq] at h
        obtain ⟨h1, h2⟩ := h
        subst h1; subst h2
        refine ⟨rfl, rfl, Or.inl rfl, ?_, ?_, ?_⟩
        · intro _
          exact ⟨f, rfl, by simp [futureFrames, pendingFrames, hp]⟩
        · intro hne; exact absurd rfl hne
        · intro heof; exact absurd heof (by decide)
      | none =>
        rw [oshu_next_frame_fatal fuel s rest hp] at h
        simp only [Option.some.injEq, Prod.mk.injEq] at h
        obtain ⟨h1, h2⟩ := h
        subst h1; subst h2
        refine ⟨rfl, rfl, Or.inr (Or.inl rfl), ?_, ?_, ?_⟩
        · intro h0; exact absurd h0 (by decide)
        · intro _
          exact ⟨rfl, by simp [futureFrames, pendingFrames, hp]⟩
        · intro heof; exact absurd heof (by decide)

/-! ### Claim C4: end of stream is an idempotent terminal state -/

/-- Claim C4: once `oshu_next_frame` (decode_next) has returned
end of stream, every subsequent call on the resulting stream returns
end of stream again with the stream unchanged; decoding never silently
resumes. -/
theorem c4_decode_eof_idempotent (fuel fuel' : Nat) (s s' : OshuStream)
    (h : oshu_next_frame fuel s = some (AVERROR_EOF, s')) :
    oshu_next_frame (fuel' + 1) s' = some (AVERROR_EOF, s') := by
  obtain ⟨-, -, -, -, -, heof⟩ := oshu_next_frame_spec fuel s AVERROR_EOF s' h
  obtain ⟨hp, hfl⟩ := heof rfl
  exact oshu_next_frame_eof fuel' s' hp hfl

theorem c4_decode_eof_idempotent_witness :
    oshu_next_frame 1 ⟨[], ⟨[], true⟩, 0, none, 1⟩ =
      some (AVERROR_EOF, ⟨[], ⟨[], true⟩, 0, none, 1⟩) :=
  c4_decode_eof_idempotent 2 0 ⟨[], ⟨[], false⟩, 0, none, 1⟩ _ (by decide)

/-! ### Claim C3: per-packet errors are not skipped but abort the stream -/

/-- A source whose first audio packet fails to decode (a transient
per-packet error) while a perfectly decodable packet follows it. -/
def transientErrorStream : OshuStream :=
  ⟨[ReadEvent.packet 0 false [some ⟨1⟩], ReadEvent.packet 0 true [some ⟨2⟩]],
    ⟨[], false⟩, 0, none, 1⟩

/-- Claim C3 counterexample: on a source whose first packet fails with a
transient decode error while the next packet decodes fine, the decode
loop does not skip the bad packet and continue — it aborts the whole
stream with the error return -1 instead of producing the next frame. -/
theorem c3_counterexample :
    (oshu_next_frame 9 transientErrorStream).map Prod.fst = some (-1) ∧
      (oshu_next_frame 9 transientErrorStream).map Prod.fst ≠ some 0 := by decide

/-- Claim C3 amended: a demuxer read error, or a packet of the selected
track that the decoder refuses, aborts decoding: `oshu_next_frame`
returns the error value -1 (after logging) with the offending event
consumed; the only packets that are skipped with the loop continuing
are packets belonging to a different track than the selected one. -/
theorem c3_packet_errors_abort (fuel : Nat) (s : OshuStream)
    (hp : s.dec.pending = []) (hfl : s.dec.flushed = false) :
    (∀ rest, s.events = ReadEvent.rerror :: rest →
        oshu_next_frame (fuel + 1) s = some (-1, { s with events := rest })) ∧
      (∀ frames rest,
        s.events = ReadEvent.packet s.streamIndex false frames :: rest →
        oshu_next_frame (fuel + 1) s = some (-1, { s with events := rest })) ∧
      (∀ i ok frames rest, s.events = ReadEvent.packet i ok frames :: rest →
        i ≠ s.streamIndex →
        oshu_next_frame (fuel + 1) s = oshu_next_frame (fuel + 1) { s with events := rest }) := by
  refine ⟨?_, ?_, ?_⟩
  · intro rest hev
    rw [oshu_next_frame_eagain fuel s hp hfl]
    simp [next_page, next_page_go, hev]
  · intro frames rest hev
    rw [oshu_next_frame_eagain fuel s hp hfl]
    simp [next_page, next_page_go, hev]
  · intro i ok frames rest hev hi
    have hnp : next_page s = next_page { s with events := rest } := by
      simp [next_page, next_page_go, hev, hi]
    rw [oshu_next_frame_eagain fuel s hp hfl,
      oshu_next_frame_eagain fuel { s with events := rest } hp hfl, hnp]

theorem c3_packet_errors_abort_witness :
    oshu_next_frame 9 transientErrorStream =
      some (-1, { transientErrorStream with
        events := [ReadEvent.packet 0 true [some ⟨2⟩]] }) :=
  (c3_packet_errors_abort 8 transientErrorStream rfl rfl).2.1 [some ⟨1⟩] _ rfl

/-! ### Stream lifecycle (oshu_open_stream / oshu_close_stream) -/

/-- Resource ledger of one struct oshu_stream: whether each resource
pointer (frame, decoder, demuxer) is currently non-null, and how many
times each resource has been released so far. -/
structure StreamLedger where
  frame : Bool
  decoder : Bool
  demuxer : Bool
  frameFrees : Nat
  decoderFrees : Nat
  demuxerFrees : Nat
  deriving DecidableEq, Repr

/-- A freshly zeroed struct oshu_stream: every pointer null. -/
def emptyLedger : StreamLedger := ⟨false, false, false, 0, 0, 0⟩

/-- `oshu_close_stream` (stream.c:163): release the frame, the decoder
and the demuxer, each one only when its pointer is non-null; the ffmpeg
free functions null the pointers they are handed, so closing again
releases nothing more. -/
def oshu_close_stream (l : StreamLedger) : StreamLedger :=
  let l1 :=
    if l.frame then { l with frame := false, frameFrees := l.frameFrees + 1 } else l
  let l2 :=
    if l1.decoder then
      { l1 with decoder := false, decoderFrees := l1.decoderFrees + 1 }
    else l1
  if l2.demuxer then
    { l2 with demuxer := false, demuxerFrees := l2.demuxerFrees + 1 }
  else l2

/-- Results of the external library calls made while opening a stream:
whether each call succeeds, the selected audio track (none when the
container has no decodable audio stream), the stream's time base and
the container's packet sequence.  `avformat_open_input` frees its
half-opened context itself on failure, so a failed open leaves the
demuxer pointer null. -/
structure OpenEnv where
  openInputOk : Bool
  findInfoOk : Bool
  bestStream : Option Int
  timeBase : Rat
  paramsOk : Bool
  codecOpenOk : Bool
  frameAllocOk : Bool
  events : List ReadEvent
  deriving DecidableEq, Repr

inductive OpenStreamResult where
  | ok (s : OshuStream) (l : StreamLedger)
  | err (l : StreamLedger)
  | fuelOut
  deriving DecidableEq, Repr

/-- `oshu_open_stream` (stream.c:149): open the demuxer (probe headers,
select the best audio track), open the decoder, allocate the frame, and
decode the first frame; any failure, including failure to decode a
first frame, runs `oshu_close_stream` on whatever was acquired and
returns an error. -/
def oshu_open_stream (fuel : Nat) (env : OpenEnv) : OpenStreamResult :=
  if !env.openInputOk then OpenStreamResult.err (oshu_close_stream emptyLedger)
  else
    let l1 : StreamLedger := { emptyLedger with demuxer := true }
    if !env.findInfoOk then OpenStreamResult.err (oshu_close_stream l1)
    else
      match env.bestStream with
      | none => OpenStreamResult.err (oshu_close_stream l1)
      | some idx =>
        let l2 := { l1 with decoder := true }
        if !env.paramsOk then OpenStreamResult.err (oshu_close_stream l2)
        else if !env.codecOpenOk then OpenStreamResult.err (oshu_close_stream l2)
        else if !env.frameAllocOk then OpenStreamResult.err (oshu_close_stream l2)
        else
          let l3 := { l2 with frame := true }
          match oshu_next_frame fuel ⟨env.events, ⟨[], false⟩, idx, none, env.timeBase⟩ with
          | none => OpenStreamResult.fuelOut
          | some (rc, s') =>
            if rc < 0 then OpenStreamResult.err (oshu_close_stream l3)
            else OpenStreamResult.ok s' l3

/-! ### Claim C10: open decodes the first frame or tears down -/

/-- Claim C10: a successful `oshu_open_stream` has already decoded the
first audio frame (the returned stream holds a decoded frame and all
three resources); every failing open returns with every resource
pointer nulled; in particular when the first decode fails (error, or
end of stream on an empty track) the open fails and releases the frame,
decoder and demuxer exactly once each. -/
theorem c10_open_decodes_first_frame (fuel : Nat) (env : OpenEnv) :
    (∀ s l, oshu_open_stream fuel env = OpenStreamResult.ok s l →
        s.frame.isSome = true ∧ l = ⟨true, true, true, 0, 0, 0⟩) ∧
      (∀ l, oshu_open_stream fuel env = OpenStreamResult.err l →
        l.frame = false ∧ l.decoder = false ∧ l.demuxer = false) ∧
      (∀ idx rc s', env.openInputOk = true → env.findInfoOk = true →
        env.bestStream = some idx → env.paramsOk = true → env.codecOpenOk = true →
        env.frameAllocOk = true →
        oshu_next_frame fuel ⟨env.events, ⟨[], false⟩, idx, none, env.timeBase⟩ =
          some (rc, s') →
        rc < 0 →
        oshu_open_stream fuel env = OpenStreamResult.err ⟨false, false, false, 1, 1, 1⟩) := by
  rcases env with ⟨oi, fi, bs, tb, po, co, fa, evs⟩
  refine ⟨?_, ?_, ?_⟩
  · intro s l hres
    cases oi <;> cases fi <;>
      simp [oshu_open_stream, emptyLedger, oshu_close_stream] at hres
    rcases bs with - | idx
    · simp at hres
    · cases po <;> cases co <;> cases fa <;>
        simp [oshu_close_stream] at hres
      rcases hnf : oshu_next_frame fuel ⟨evs, ⟨[], false⟩, idx, none, tb⟩ with - | ⟨rc, s2⟩ <;>
        simp [hnf] at hres
      by_cases hrc : rc < 0
      · simp [hrc, oshu_close_stream] at hres
      · simp [hrc] at hres
        obtain ⟨rfl, rfl⟩ := hres
        obtain ⟨-, -, krc, k0, -, -⟩ :=
          oshu_next_frame_spec fuel _ rc s2 hnf
        have h0 : rc = 0 := by
          rcases krc with h | h | h
          · exact h
          · exact absurd (h ▸ (by decide : (-1 : Int) < 0)) hrc
          · exact absurd (h ▸ (by decide : AVERROR_EOF < 0)) hrc
        obtain ⟨f, hf, -⟩ := k0 h0
        exact ⟨by simp [hf], rfl⟩
  · intro l hres
    cases oi <;> cases fi <;>
      simp [oshu_open_stream, emptyLedger, oshu_close_stream] at hres <;>
      try { obtain rfl := hres.symm; exact ⟨rfl, rfl, rfl⟩ }
    · rcases bs with - | idx
      · simp [oshu_close_stream, emptyLedger] at hres
        obtain rfl := hres.symm
        exact ⟨rfl, rfl, rfl⟩
      · cases po <;> cases co <;> cases fa <;>
          simp [oshu_close_stream] at hres <;>
          try { obtain rfl := hres.symm; exact ⟨rfl, rfl, rfl⟩ }
        rcases hnf : oshu_next_frame fuel ⟨evs, ⟨[], false⟩, idx, none, tb⟩ with - | ⟨rc, s2⟩ <;>
          simp [hnf] at hres
        by_cases hrc : rc < 0
        · simp [hrc, oshu_close_stream] at hres
          obtain rfl := hres.symm
          exact ⟨rfl, rfl, rfl⟩
        · simp [hrc] at hres
  · intro idx rc s' hoi hfi hbs hpo hco hfa hnf hrc
    subst hoi; subst hfi; subst hbs; subst hpo; subst hco; subst hfa
    simp [oshu_open_stream, hnf, hrc, oshu_close_stream, emptyLedger]

/-- A wellformed one-packet source for exercising the open path. -/
def envGood : OpenEnv :=
  ⟨true, true, some 0, 1, true, true, true, [ReadEvent.packet 0 true [some ⟨3⟩]]⟩

/-- A source whose selected track delivers no frame at all. -/
def envEmpty : OpenEnv := ⟨true, true, some 0, 1, true, true, true, []⟩

theorem c10_open_decodes_first_frame_witness :
    ((⟨[], ⟨[], false⟩, 0, some ⟨3⟩, 1⟩ : OshuStream).frame.isSome = true ∧
        (⟨true, true, true, 0, 0, 0⟩ : StreamLedger) = ⟨true, true, true, 0, 0, 0⟩) ∧
      oshu_open_stream 2 envEmpty = OpenStreamResult.err ⟨false, false, false, 1, 1, 1⟩ :=
  ⟨(c10_open_decodes_first_frame 3 envGood).1 _ _ (by decide),
    (c10_open_decodes_first_frame 2 envEmpty).2.2 0 AVERROR_EOF
      ⟨[], ⟨[], true⟩, 0, none, 1⟩ rfl rfl rfl rfl rfl rfl (by decide) (by decide)⟩

/-! ### Device and filter-graph construction (pipeline.c) -/

/-- Size of the SDL audio buffer, in samples (pipeline.c:21). -/
def sample_buffer_size : Nat := 1024

/-- SDL audio format code AUDIO_F32 (32-bit float). -/
def AUDIO_F32 : Nat := 33056

/-- SDL audio format code AUDIO_U8, the only format whose silence byte
is nonzero (0x80). -/
def AUDIO_U8 : Nat := 8

/-- ffmpeg sample format codes from libavutil/samplefmt.h. -/
def AV_SAMPLE_FMT_S16 : Int := 1

def AV_SAMPLE_FMT_FLT : Int := 3

/-- ffmpeg channel layout masks. -/
def AV_CH_LAYOUT_STEREO : Nat := 3

def AV_CH_LAYOUT_MONO : Nat := 4

/-- The decoder parameters the pipeline reads off the opened stream. -/
structure DecoderParams where
  sampleRate : Int
  channels : Nat
  sampleFmt : Int
  channelLayout : Nat
  deriving DecidableEq, Repr

/-- The SDL audio spec fields the engine uses. -/
structure SDLAudioSpec where
  freq : Int
  format : Nat
  channels : Nat
  samples : Nat
  silence : Nat
  deriving DecidableEq, Repr

/-- The desired spec `open_device` (pipeline.c:114) builds: the
decoder's native sample rate and channel count, 32-bit float samples,
and `sample_buffer_size * channels` samples per buffer. -/
def open_device_want (d : DecoderParams) : SDLAudioSpec :=
  { freq := d.sampleRate, format := AUDIO_F32, channels := d.channels,
    samples := sample_buffer_size * d.channels, silence := 0 }

/-- SDL's silence byte for a format: 0x80 for unsigned 8-bit samples,
0 otherwise. -/
def sdl_silence_value (format : Nat) : Nat := if format = AUDIO_U8 then 128 else 0

/-- `SDL_OpenAudioDevice` called with `allowed_changes = 0`
(pipeline.c:124): the obtained spec keeps the requested frequency,
format and channel count, with the silence value computed for the
format. -/
def sdl_negotiate (want : SDLAudioSpec) : SDLAudioSpec :=
  { want with silence := sdl_silence_value want.format }

/-- Parameters bound to an abuffer source node
(AVBufferSrcParameters); `av_buffersrc_parameters_alloc` leaves every
field unset. -/
structure BufferSrcParams where
  format : Option Int
  timeBase : Option Rat
  channelLayout : Option Nat
  sampleRate : Option Int
  deriving DecidableEq, Repr

def unset_params : BufferSrcParams := ⟨none, none, none, none⟩

/-- The static filter graph built by `create_graph` (pipeline.c:132):
two abuffer sources, an amix node, an aformat node and an
abuffersink, with their configuration strings and links. -/
structure GraphSpec where
  musicParams : BufferSrcParams
  effectParams : BufferSrcParams
  mixerArgs : String
  converterArgs : String
  links : List (String × Nat × String × Nat)
  sinkFrameSize : Nat
  deriving DecidableEq, Repr

/-- `create_graph` (pipeline.c:132): the music source carries the
decoder's native format, time base, channel layout and sample rate; the
effect source carries float samples, stereo layout and the device's
frequency (line 161 of the source writes `music_params->time_base`
— a stale, already-freed struct — instead of `effect_params`, so the
effect source's time base is left unset); the mixer is amix with
`inputs=2:duration=first`; the converter is aformat constraining only
`sample_fmts=flt`; music feeds mixer pad 0 and effect feeds mixer
pad 1, then mixer → converter → sink. -/
def create_graph_spec (d : DecoderParams) (streamTimeBase : Rat)
    (dev : SDLAudioSpec) : GraphSpec :=
  { musicParams := { unset_params with
      format := some d.sampleFmt,
      timeBase := some streamTimeBase,
      channelLayout := some d.channelLayout,
      sampleRate := some d.sampleRate },
    effectParams := { unset_params with
      format := some AV_SAMPLE_FMT_FLT,
      channelLayout := some AV_CH_LAYOUT_STEREO,
      sampleRate := some dev.freq },
    mixerArgs := "inputs=2:duration=first",
    converterArgs := "sample_fmts=flt",
    links := [("music", 0, "mixer", 0), ("effect", 0, "mixer", 1),
      ("mixer", 0, "converter", 0), ("converter", 0, "sink", 0)],
    sinkFrameSize := sample_buffer_size }

/-! ### The audio callback (pipeline.c:44-108) -/

/-- C `memset(dst, value, count)` on a byte buffer: the first `count`
bytes are set to the low byte of `value`; the buffer keeps its size. -/
def memsetC (dst : List Nat) (value : Nat) (count : Nat) : List Nat :=
  List.replicate (min count dst.length) (value % 256) ++ dst.drop count

/-- C `memcpy(dst, src, count)` on byte buffers. -/
def memcpyC (dst : List Nat) (src : List Nat) (count : Nat) : List Nat :=
  src.take (min count dst.length) ++ dst.drop count

/-- One response of `av_buffersink_get_frame` on the graph's sink, as
seen by the audio callback; these come from the external libavfilter
graph, so the model quantifies over arbitrary response traces.  An
`again` response also records which of the two buffer sources report
failed requests (`av_buffersrc_get_nb_failed_requests > 0`). -/
inductive SinkResponse where
  | again (musicWants : Bool) (effectWants : Bool)
  | eof
  | ok (data : List Nat)
  | err
  deriving DecidableEq, Repr

/-- struct oshu_audio: the source stream, the playback clock, the
finished flag, the one-slot effect overlay, the negotiated device spec,
the frames handed to the graph's music source and the two flush
markers, plus the sink's response trace (the behavior of the external
filter graph) and the position reached in it. -/
structure OshuAudio where
  source : OshuStream
  currentTimestamp : Rat
  finished : Bool
  overlay : Option Unit
  deviceSpec : SDLAudioSpec
  musicQueue : List (Option AVFrame)
  musicFlushed : Bool
  effectFlushed : Bool
  sinkTrace : Nat → SinkResponse
  sinkPos : Nat

/-- `next_frame` (pipeline.c:52): decode one frame from the source; on
failure (error or end of stream, rc < 0) write the NULL flush marker to
the music source; on success hand the frame to the music source and,
when its best-effort timestamp is positive, set the playback clock to
time_base * timestamp. -/
def next_frame (fuel : Nat) (a : OshuAudio) : OshuAudio :=
  match oshu_next_frame fuel a.source with
  | none => a
  | some (rc, s') =>
    if rc < 0 then { a with source := s', musicFlushed := true }
    else
      let ts : Int := (s'.frame.map AVFrame.bestEffortTimestamp).getD 0
      { a with
        source := s',
        musicQueue := a.musicQueue ++ [s'.frame],
        currentTimestamp :=
          if 0 < ts then a.source.timeBase * (ts : Rat) else a.currentTimestamp }

/-- `feed` (pipeline.c:68): when the music source wants input, decode
one more frame; when the effect source wants input, consume the pending
overlay if any (its actual injection is commented out in the source)
and otherwise flush the effect source. -/
def feed (decodeFuel : Nat) (a : OshuAudio) (musicWants effectWants : Bool) : OshuAudio :=
  let a1 := if musicWants then next_frame decodeFuel a else a
  if effectWants then
    match a1.overlay with
    | some _ => { a1 with overlay := none }
    | none => { a1 with effectFlushed := true }
  else a1

/-- The `while (!audio->finished)` loop of `audio_callback`
(pipeline.c:91): pull a sink buffer; on EAGAIN feed the graph and
retry; on EOF mark the context finished and leave the loop; on success
return the buffer; on any other error leave the loop.  Leaving the loop
without a buffer (`none`) falls through to the final memset. -/
def callback_loop : Nat → Nat → OshuAudio → OshuAudio × Option (List Nat)
  | 0, _, a => (a, none)
  | loopFuel + 1, decodeFuel, a =>
    if a.finished then (a, none)
    else
      let r := a.sinkTrace a.sinkPos
      let a1 := { a with sinkPos := a.sinkPos + 1 }
      match r with
      | SinkResponse.again mw ew =>
        callback_loop loopFuel decodeFuel (feed decodeFuel a1 mw ew)
      | SinkResponse.eof => ({ a1 with finished := true }, none)
      | SinkResponse.ok data => (a1, some data)
      | SinkResponse.err => (a1, none)

/-- `audio_callback` (pipeline.c:86), returning the audio state and the
device buffer contents after the call.  When the loop produced a buffer
its bytes are copied out; otherwise the C source executes
`memset(buffer, len, audio->device_spec.silence)` — note the argument
order: the length is passed as the fill value and the silence value as
the byte count. -/
def audio_callback (loopFuel decodeFuel : Nat) (a : OshuAudio)
    (buffer : List Nat) (len : Nat) : OshuAudio × List Nat :=
  match callback_loop loopFuel decodeFuel a with
  | (a', some data) => (a', memcpyC buffer data len)
  | (a', none) => (a', memsetC buffer len a'.deviceSpec.silence)

/-- A sequence of device fill callbacks: each call carries its loop and
decode fuel and its device buffer. -/
def run_callbacks (calls : List (Nat × Nat × List Nat × Nat)) (a : OshuAudio) : OshuAudio :=
  calls.foldl (fun acc c => (audio_callback c.1 c.2.1 acc c.2.2.1 c.2.2.2).1) a

/-! ### Claim C1: the silence fill on a finished context -/

/-- The device spec negotiated for a mono 44.1 kHz int16 source. -/
def devF32Mono44100 : SDLAudioSpec :=
  sdl_negotiate (open_device_want ⟨44100, 1, AV_SAMPLE_FMT_S16, AV_CH_LAYOUT_MONO⟩)

/-- A context whose stream has ended and whose sink has drained. -/
def finishedAudio : OshuAudio :=
  { source := ⟨[], ⟨[], true⟩, 0, none, 1⟩,
    currentTimestamp := 3, finished := true, overlay := none,
    deviceSpec := devF32Mono44100,
    musicQueue := [], musicFlushed := true, effectFlushed := true,
    sinkTrace := fun _ => SinkResponse.eof, sinkPos := 0 }

/-- Claim C1 (code bug): on a finished context the callback is supposed
to fill all `len` bytes of the device buffer with the device's silence
value (0 for the float format the device was opened with), but because
the final memset call passes its arguments in the order
`(buffer, len, silence)` it writes `silence = 0` bytes of the value
`len` instead, leaving the device buffer untouched. -/
theorem c1_silence_fill_bug :
    (audio_callback 3 3 finishedAudio [7, 7, 7, 7] 4).2 = [7, 7, 7, 7] ∧
      List.replicate 4 finishedAudio.deviceSpec.silence = [0, 0, 0, 0] ∧
      (audio_callback 3 3 finishedAudio [7, 7, 7, 7] 4).2 ≠
        List.replicate 4 finishedAudio.deviceSpec.silence := by decide

/-! ### Claim C5: the playback clock is monotone -/

/-- The remaining frames of a source, in decode order, carry
non-decreasing best-effort timestamps (an in-order stream). -/
def tsOrdered (l : List AVFrame) : Prop :=
  l.Pairwise (fun f g => f.bestEffortTimestamp ≤ g.bestEffortTimestamp)

/-- The playback clock is a lower bound on the clock value of every
remaining positively-timestamped frame. -/
def tsBound (a : OshuAudio) : Prop :=
  ∀ f ∈ futureFrames a.source, 0 < f.bestEffortTimestamp →
    a.currentTimestamp ≤ a.source.timeBase * (f.bestEffortTimestamp : Rat)

/-- Well-formedness of a playing context: a non-negative time base, an
in-order stream, and the clock below every remaining frame's clock
value.  This holds for a freshly opened context on an in-order stream
and is preserved by every callback. -/
def audioInv (a : OshuAudio) : Prop :=
  0 ≤ a.source.timeBase ∧ tsOrdered (futureFrames a.source) ∧ tsBound a

instance (l : List AVFrame) : Decidable (tsOrdered l) := by
  unfold tsOrdered; infer_instance

instance (a : OshuAudio) : Decidable (tsBound a) := by
  unfold tsBound; infer_instance

instance (a : OshuAudio) : Decidable (audioInv a) := by
  unfold audioInv; infer_instance

theorem next_frame_clock (fuel : Nat) (a : OshuAudio) (h : audioInv a) :
    a.currentTimestamp ≤ (next_frame fuel a).currentTimestamp ∧
      audioInv (next_frame fuel a) ∧
      (next_frame fuel a).finished = a.finished := by
  obtain ⟨h0, hord, hbd⟩ := h
  unfold next_frame
  rcases hnf : oshu_next_frame fuel a.source with - | ⟨rc, s'⟩
  · exact ⟨le_refl _, ⟨h0, hord, hbd⟩, rfl⟩
  · obtain ⟨htb, -, krc, k0, kne, -⟩ := oshu_next_frame_spec fuel a.source rc s' hnf
    by_cases hrc : rc < 0
    · obtain ⟨-, hff⟩ := kne hrc.ne
      simp only [if_pos hrc]
      refine ⟨le_refl _, ⟨?_, ?_, ?_⟩, ?_⟩
      · show (0 : Rat) ≤ s'.timeBase
        rw [htb]; exact h0
      · show tsOrdered (futureFrames s')
        rw [hff]; exact hord
      · intro g hg hgpos
        rw [show ({ a with source := s', musicFlushed := true } : OshuAudio).currentTimestamp
          = a.currentTimestamp from rfl]
        have : g ∈ futureFrames a.source := by rw [← hff]; exact hg
        simpa [htb] using hbd g this hgpos
      · trivial
    · have h0rc : rc = 0 := by
        rcases krc with h' | h' | h'
        · exact h'
        · exact absurd (h' ▸ (by decide : (-1 : Int) < 0)) hrc
        · exact absurd (h' ▸ (by decide : AVERROR_EOF < 0)) hrc
      obtain ⟨f, hf, hcons⟩ := k0 h0rc
      simp only [if_neg hrc, hf]
      have hmemf : f ∈ futureFrames a.source := by
        rw [hcons]; exact List.mem_cons_self f _
      have htail : ∀ g ∈ futureFrames s',
          f.bestEffortTimestamp ≤ g.bestEffortTimestamp := by
        have := List.pairwise_cons.mp (hcons ▸ hord)
        exact this.1
      have hordtail : tsOrdered (futureFrames s') :=
        (List.pairwise_cons.mp (hcons ▸ hord)).2
      by_cases hpos : 0 < f.bestEffortTimestamp
      · simp only [Option.map_some', Option.getD_some, if_pos hpos]
        refine ⟨hbd f hmemf hpos, ⟨?_, ?_, ?_⟩, ?_⟩
        · show (0 : Rat) ≤ s'.timeBase
          rw [htb]; exact h0
        · exact hordtail
        · intro g hg hgpos
          show a.source.timeBase * (f.bestEffortTimestamp : Rat) ≤
            s'.timeBase * (g.bestEffortTimestamp : Rat)
          rw [htb]
          exact mul_le_mul_of_nonneg_left (Int.cast_le.mpr (htail g hg)) h0
        · trivial
      · simp only [Option.map_some', Option.getD_some, if_neg hpos]
        refine ⟨le_refl _, ⟨?_, ?_, ?_⟩, ?_⟩
        · show (0 : Rat) ≤ s'.timeBase
          rw [htb]; exact h0
        · exact hordtail
        · intro g hg hgpos
          show a.currentTimestamp ≤ s'.timeBase * (g.bestEffortTimestamp : Rat)
          rw [htb]
          exact hbd g (by rw [hcons]; exact List.mem_cons_of_mem f hg) hgpos
        · trivial

theorem feed_clock (decodeFuel : Nat) (a : OshuAudio) (mw ew : Bool) (h : audioInv a) :
    a.currentTimestamp ≤ (feed decodeFuel a mw ew).currentTimestamp ∧
      audioInv (feed decodeFuel a mw ew) ∧
      (feed decodeFuel a mw ew).finished = a.finished := by
  obtain ⟨h1, h2, h3⟩ :
      a.currentTimestamp ≤ (if mw then next_frame decodeFuel a else a).currentTimestamp ∧
        audioInv (if mw then next_frame decodeFuel a else a) ∧
        (if mw then next_frame decodeFuel a else a).finished = a.finished := by
    cases mw
    · exact ⟨le_refl _, h, rfl⟩
    · exact next_frame_clock decodeFuel a h
  cases ew
  · exact ⟨h1, h2, h3⟩
  · have hfe : feed decodeFuel a mw true =
        (match (if mw then next_frame decodeFuel a else a).overlay with
          | some _ => { (if mw then next_frame decodeFuel a else a) with overlay := none }
          | none =>
            { (if mw then next_frame decodeFuel a else a) with effectFlushed := true }) := rfl
    rw [hfe]
    rcases (if mw then next_frame decodeFuel a else a).overlay with - | u
    · exact ⟨h1, h2, h3⟩
    · exact ⟨h1, h2, h3⟩

theorem callback_loop_clock (loopFuel decodeFuel : Nat) (a : OshuAudio) (h : audioInv a) :
    a.currentTimestamp ≤ (callback_loop loopFuel decodeFuel a).1.currentTimestamp ∧
      audioInv (callback_loop loopFuel decodeFuel a).1 ∧
      (a.finished = true → callback_loop loopFuel decodeFuel a = (a, none)) := by
  induction loopFuel generalizing a with
  | zero => exact ⟨le_refl _, h, fun _ => rfl⟩
  | succ n ih =>
    by_cases hf : a.finished = true
    · rw [callback_loop, if_pos hf]
      exact ⟨le_refl _, h, fun _ => rfl⟩
    · rw [callback_loop, if_neg hf]
      rcases hr : a.sinkTrace a.sinkPos with ⟨mw, ew⟩ | - | data | -
      · simp only
        obtain ⟨f1, f2, -⟩ :=
          feed_clock decodeFuel { a with sinkPos := a.sinkPos + 1 } mw ew h
        obtain ⟨k1, k2, -⟩ := ih _ f2
        exact ⟨f1.trans k1, k2, fun hc => absurd hc hf⟩
      · exact ⟨le_refl _, h, fun hc => absurd hc hf⟩
      · exact ⟨le_refl _, h, fun hc => absurd hc hf⟩
      · exact ⟨le_refl _, h, fun hc => absurd hc hf⟩

theorem audio_callback_clock (lf df : Nat) (a : OshuAudio) (buf : List Nat)
    (len : Nat) (h : audioInv a) :
    a.currentTimestamp ≤ (audio_callback lf df a buf len).1.currentTimestamp ∧
      audioInv (audio_callback lf df a buf len).1 ∧
      (a.finished = true → (audio_callback lf df a buf len).1 = a) := by
  obtain ⟨h1, h2, h3⟩ := callback_loop_clock lf df a h
  have hfst : (audio_callback lf df a buf len).1 = (callback_loop lf df a).1 := by
    unfold audio_callback
    rcases callback_loop lf df a with ⟨a', data?⟩
    rcases data? with - | d
    · rfl
    · rfl
  rw [hfst]
  refine ⟨h1, h2, fun hf => ?_⟩
  rw [h3 hf]

/-- Claim C5: across any sequence of device fill callbacks on a
well-formed context (non-negative time base, in-order source), the
exposed playback timestamp never decreases while the context is not
finished, and once the context is finished the callbacks leave the
state — in particular the timestamp — exactly unchanged. -/
theorem c5_clock_monotone (calls : List (Nat × Nat × List Nat × Nat))
    (a : OshuAudio) (h : audioInv a) :
    a.currentTimestamp ≤ (run_callbacks calls a).currentTimestamp ∧
      audioInv (run_callbacks calls a) ∧
      (a.finished = true → run_callbacks calls a = a) := by
  induction calls generalizing a with
  | nil => exact ⟨le_refl _, h, fun _ => rfl⟩
  | cons c rest ih =>
    obtain ⟨h1, h2, h3⟩ := audio_callback_clock c.1 c.2.1 a c.2.2.1 c.2.2.2 h
    obtain ⟨k1, k2, -⟩ := ih _ h2
    have hcons : run_callbacks (c :: rest) a =
        run_callbacks rest (audio_callback c.1 c.2.1 a c.2.2.1 c.2.2.2).1 := rfl
    refine ⟨?_, ?_, ?_⟩
    · rw [hcons]; exact h1.trans k1
    · rw [hcons]; exact k2
    · intro hf
      rw [hcons, h3 hf]
      exact (ih a h).2.2 hf

/-- A freshly opened, playing context on a short in-order source. -/
def playingAudio : OshuAudio :=
  { source := ⟨[ReadEvent.packet 0 true [some ⟨1⟩, some ⟨2⟩]], ⟨[], false⟩, 0, some ⟨0⟩, 1⟩,
    currentTimestamp := 0, finished := false, overlay := none,
    deviceSpec := devF32Mono44100,
    musicQueue := [], musicFlushed := false, effectFlushed := false,
    sinkTrace := fun n => if n = 0 then SinkResponse.again true true
      else SinkResponse.ok [1, 2],
    sinkPos := 0 }

theorem c5_clock_monotone_witness :
    audioInv playingAudio ∧
      (playingAudio.currentTimestamp ≤
          (run_callbacks [(4, 4, [0, 0, 0, 0], 4)] playingAudio).currentTimestamp ∧
        audioInv (run_callbacks [(4, 4, [0, 0, 0, 0], 4)] playingAudio) ∧
        (playingAudio.finished = true →
          run_callbacks [(4, 4, [0, 0, 0, 0], 4)] playingAudio = playingAudio)) :=
  have hinv : audioInv playingAudio :=
    ⟨zero_le_one,
      by simp [tsOrdered, futureFrames, pendingFrames, eventFrames, playingAudio],
      fun f _ hpos =>
        mul_nonneg zero_le_one (le_of_lt (by exact_mod_cast hpos))⟩
  ⟨hinv, c5_clock_monotone [(4, 4, [0, 0, 0, 0], 4)] playingAudio hinv⟩

/-! ### Claim C9: non-positive timestamps do not advance the clock -/

theorem rc_zero_of_not_neg {rc : Int} (krc : rc = 0 ∨ rc = -1 ∨ rc = AVERROR_EOF)
    (hrc : ¬ rc < 0) : rc = 0 := by
  rcases krc with h | h | h
  · exact h
  · exact absurd (h ▸ (by decide : (-1 : Int) < 0)) hrc
  · exact absurd (h ▸ (by decide : AVERROR_EOF < 0)) hrc

/-- Every remaining frame of the source carries a non-positive
best-effort timestamp. -/
def allNonPosTs (a : OshuAudio) : Prop :=
  ∀ f ∈ futureFrames a.source, f.bestEffortTimestamp ≤ 0

instance (a : OshuAudio) : Decidable (allNonPosTs a) := by
  unfold allNonPosTs; infer_instance

theorem next_frame_nonpos (fuel : Nat) (a : OshuAudio) (h : allNonPosTs a) :
    (next_frame fuel a).currentTimestamp = a.currentTimestamp ∧
      allNonPosTs (next_frame fuel a) := by
  unfold next_frame
  rcases hnf : oshu_next_frame fuel a.source with - | ⟨rc, s'⟩
  · exact ⟨rfl, h⟩
  · obtain ⟨-, -, krc, k0, kne, -⟩ := oshu_next_frame_spec fuel a.source rc s' hnf
    by_cases hrc : rc < 0
    · obtain ⟨-, hff⟩ := kne hrc.ne
      simp only [if_pos hrc]
      exact ⟨by trivial, fun g hg => h g (by rw [← hff]; exact hg)⟩
    · obtain ⟨f, hf, hcons⟩ := k0 (rc_zero_of_not_neg krc hrc)
      have hts : f.bestEffortTimestamp ≤ 0 :=
        h f (by rw [hcons]; exact List.mem_cons_self f _)
      have hnpos : ¬ (0 < f.bestEffortTimestamp) := not_lt.mpr hts
      simp only [if_neg hrc, hf, Option.map_some', Option.getD_some, if_neg hnpos]
      exact ⟨by trivial, fun g hg => h g (by rw [hcons]; exact List.mem_cons_of_mem f hg)⟩

theorem feed_nonpos (decodeFuel : Nat) (a : OshuAudio) (mw ew : Bool)
    (h : allNonPosTs a) :
    (feed decodeFuel a mw ew).currentTimestamp = a.currentTimestamp ∧
      allNonPosTs (feed decodeFuel a mw ew) := by
  obtain ⟨h1, h2⟩ :
      (if mw then next_frame decodeFuel a else a).currentTimestamp = a.currentTimestamp ∧
        allNonPosTs (if mw then next_frame decodeFuel a else a) := by
    cases mw
    · exact ⟨rfl, h⟩
    · exact next_frame_nonpos decodeFuel a h
  cases ew
  · exact ⟨h1, h2⟩
  · have hfe : feed decodeFuel a mw true =
        (match (if mw then next_frame decodeFuel a else a).overlay with
          | some _ => { (if mw then next_frame decodeFuel a else a) with overlay := none }
          | none =>
            { (if mw then next_frame decodeFuel a else a) with effectFlushed := true }) := rfl
    rw [hfe]
    rcases (if mw then next_frame decodeFuel a else a).overlay with - | u
    · exact ⟨h1, h2⟩
    · exact ⟨h1, h2⟩

theorem callback_loop_nonpos (loopFuel decodeFuel : Nat) (a : OshuAudio)
    (h : allNonPosTs a) :
    (callback_loop loopFuel decodeFuel a).1.currentTimestamp = a.currentTimestamp ∧
      allNonPosTs (callback_loop loopFuel decodeFuel a).1 := by
  induction loopFuel generalizing a with
  | zero => exact ⟨rfl, h⟩
  | succ n ih =>
    by_cases hf : a.finished = true
    · rw [callback_loop, if_pos hf]
      exact ⟨rfl, h⟩
    · rw [callback_loop, if_neg hf]
      rcases hr : a.sinkTrace a.sinkPos with ⟨mw, ew⟩ | - | data | -
      · simp only
        obtain ⟨f1, f2⟩ :=
          feed_nonpos decodeFuel { a with sinkPos := a.sinkPos + 1 } mw ew h
        obtain ⟨k1, k2⟩ := ih _ f2
        exact ⟨k1.trans f1, k2⟩
      · exact ⟨rfl, h⟩
      · exact ⟨rfl, h⟩
      · exact ⟨rfl, h⟩

theorem audio_callback_fst (lf df : Nat) (a : OshuAudio) (buf : List Nat) (len : Nat) :
    (audio_callback lf df a buf len).1 = (callback_loop lf df a).1 := by
  unfold audio_callback
  rcases callback_loop lf df a with ⟨a', data?⟩
  rcases data? with - | d
  · rfl
  · rfl

/-- Claim C9: handing a decoded frame whose best-effort timestamp is
zero or negative to the pipeline leaves the playback clock untouched;
in particular, on a freshly opened context (clock 0) the exposed
position stays 0 across any sequence of callbacks while every remaining
frame's timestamp is non-positive. -/
theorem c9_nonpositive_ts_no_advance :
    (∀ (fuel : Nat) (a : OshuAudio) (s' : OshuStream) (f : AVFrame),
      oshu_next_frame fuel a.source = some (0, s') → s'.frame = some f →
      f.bestEffortTimestamp ≤ 0 →
      (next_frame fuel a).currentTimestamp = a.currentTimestamp) ∧
      (∀ (calls : List (Nat × Nat × List Nat × Nat)) (a : OshuAudio),
        a.currentTimestamp = 0 → allNonPosTs a →
        (run_callbacks calls a).currentTimestamp = 0) := by
  constructor
  · intro fuel a s' f hnf hf hts
    unfold next_frame
    rw [hnf]
    have hnpos : ¬ (0 < f.bestEffortTimestamp) := not_lt.mpr hts
    simp only [if_neg (by decide : ¬ ((0 : Int) < 0)), hf, Option.map_some',
      Option.getD_some, if_neg hnpos]
  · intro calls
    induction calls with
    | nil => intro a h0 _; exact h0
    | cons c rest ih =>
      intro a h0 hnp
      have hcons : run_callbacks (c :: rest) a =
          run_callbacks rest (audio_callback c.1 c.2.1 a c.2.2.1 c.2.2.2).1 := rfl
      obtain ⟨k1, k2⟩ := callback_loop_nonpos c.1 c.2.1 a hnp
      have e := audio_callback_fst c.1 c.2.1 a c.2.2.1 c.2.2.2
      rw [hcons]
      refine ih _ ?_ ?_
      · rw [e, k1, h0]
      · show allNonPosTs (audio_callback c.1 c.2.1 a c.2.2.1 c.2.2.2).1
        unfold allNonPosTs
        rw [show (audio_callback c.1 c.2.1 a c.2.2.1 c.2.2.2).1.source =
          (callback_loop c.1 c.2.1 a).1.source from congrArg OshuAudio.source e]
        exact k2

/-- A fresh context whose source frames all carry timestamps at or
before zero. -/
def quietAudio : OshuAudio :=
  { source := ⟨[ReadEvent.packet 0 true [some ⟨-7⟩, some ⟨0⟩]], ⟨[], false⟩, 0,
      some ⟨-9⟩, 1⟩,
    currentTimestamp := 0, finished := false, overlay := none,
    deviceSpec := devF32Mono44100, musicQueue := [], musicFlushed := false,
    effectFlushed := false,
    sinkTrace := fun n => if n = 0 then SinkResponse.again true false
      else SinkResponse.ok [0],
    sinkPos := 0 }

theorem c9_nonpositive_ts_no_advance_witness :
    (next_frame 3 quietAudio).currentTimestamp = quietAudio.currentTimestamp ∧
      (run_callbacks [(3, 3, [0, 0], 2)] quietAudio).currentTimestamp = 0 :=
  ⟨c9_nonpositive_ts_no_advance.1 3 quietAudio
      ⟨[], ⟨[some ⟨0⟩], false⟩, 0, some ⟨-7⟩, 1⟩ ⟨-7⟩ (by decide) (by decide) (by decide),
    c9_nonpositive_ts_no_advance.2 [(3, 3, [0, 0], 2)] quietAudio rfl (by decide)⟩

/-! ### Claim C2: device format negotiation and the sink's format -/

/-- The decoder of the spec's scenario: natively 44100 Hz, mono, int16
samples. -/
def dec44100MonoS16 : DecoderParams := ⟨44100, 1, AV_SAMPLE_FMT_S16, AV_CH_LAYOUT_MONO⟩

/-- Claim C2 counterexample: the scenario the claim quantifies over —
an open that requests device format {48000 Hz, stereo, float} while the
decoder natively produces {44100 Hz, mono, int16} — cannot arise from
this code: `open_device` derives its request from the decoder's native
parameters, so for that decoder it requests, and (with
`allowed_changes = 0`) negotiates, 44100 Hz mono, never 48000 Hz
stereo; no open exists whose negotiated rate or channel count differs
from the decoder's. -/
theorem c2_counterexample :
    (open_device_want dec44100MonoS16).freq ≠ 48000 ∧
      (open_device_want dec44100MonoS16).channels ≠ 2 ∧
      (sdl_negotiate (open_device_want dec44100MonoS16)).freq = 44100 ∧
      (sdl_negotiate (open_device_want dec44100MonoS16)).channels = 1 := by decide

/-- Claim C2 amended: `open` takes no independent device-format
request: the spec it asks the device for (and, with
`allowed_changes = 0`, negotiates unchanged) always carries the
decoder's native sample rate and channel count with 32-bit float
encoding; in the constructed graph the final conversion stage pins only
the sample encoding of the sink's buffers, to float, while the sink's
sample rate and channel count are left to graph negotiation seeded by
the music source (decoder-native parameters) and the effect source
(device frequency, stereo) rather than being forced to the device's
negotiated values. -/
theorem c2_device_format_from_decoder (d : DecoderParams) (tb : Rat)
    (dev : SDLAudioSpec) :
    (open_device_want d).freq = d.sampleRate ∧
      (open_device_want d).channels = d.channels ∧
      (open_device_want d).format = AUDIO_F32 ∧
      (sdl_negotiate (open_device_want d)).freq = d.sampleRate ∧
      (sdl_negotiate (open_device_want d)).channels = d.channels ∧
      (sdl_negotiate (open_device_want d)).format = AUDIO_F32 ∧
      (create_graph_spec d tb dev).converterArgs = "sample_fmts=flt" ∧
      (create_graph_spec d tb dev).musicParams.sampleRate = some d.sampleRate ∧
      (create_graph_spec d tb dev).musicParams.channelLayout = some d.channelLayout ∧
      (create_graph_spec d tb dev).musicParams.format = some d.sampleFmt ∧
      (create_graph_spec d tb dev).effectParams.sampleRate = some dev.freq :=
  ⟨rfl, rfl, rfl, rfl, rfl, rfl, rfl, rfl, rfl, rfl, rfl⟩

/-! ### Claim C6: mixing follows the first (music) input's duration -/

/-- The mixing semantics of ffmpeg's amix filter configured with
`duration=first`, modelled from its documented contract (the filter
itself is an external library component): samples of the two inputs are
summed while both inputs run; the output stream ends exactly with the
first input, so a longer second input is truncated there and a shorter
one contributes nothing past its own end. -/
def amix_duration_first : List Rat → List Rat → List Rat
  | [], _ => []
  | x :: xs, [] => x :: amix_duration_first xs []
  | x :: xs, y :: ys => (x + y) :: amix_duration_first xs ys

/-- Claim C6: mixing a music input of duration D with an effect input
of duration E yields output of duration exactly D (duration-of-first
semantics, so an effect tail beyond D is truncated), past the effect's
end the output carries only the music input's samples, and the source
configures exactly this policy: amix runs with
`inputs=2:duration=first` and the music source feeds the mixer's first
input pad. -/
theorem c6_mix_duration_first :
    (∀ music effect : List Rat,
        (amix_duration_first music effect).length = music.length) ∧
      (∀ (music effect : List Rat) (i : Nat), effect.length ≤ i →
        (amix_duration_first music effect).getD i 0 = music.getD i 0) ∧
      (∀ (d : DecoderParams) (tb : Rat) (dev : SDLAudioSpec),
        (create_graph_spec d tb dev).mixerArgs = "inputs=2:duration=first" ∧
          ("music", 0, "mixer", 0) ∈ (create_graph_spec d tb dev).links ∧
          ("effect", 0, "mixer", 1) ∈ (create_graph_spec d tb dev).links) := by
  refine ⟨?_, ?_, ?_⟩
  · intro music
    induction music with
    | nil => intro effect; cases effect <;> rfl
    | cons x xs ih =>
      intro effect
      cases effect with
      | nil => simpa [amix_duration_first] using ih []
      | cons y ys => simpa [amix_duration_first] using ih ys
  · intro music
    induction music with
    | nil =>
      intro effect i hi
      cases effect <;> simp [amix_duration_first]
    | cons x xs ih =>
      intro effect i hi
      cases effect with
      | nil =>
        cases i with
        | zero => rfl
        | succ j => simpa [amix_duration_first] using ih [] j (Nat.zero_le j)
      | cons y ys =>
        cases i with
        | zero => exact absurd hi (by simp)
        | succ j =>
          simpa [amix_duration_first] using ih ys j (Nat.le_of_succ_le_succ hi)
  · intro d tb dev
    refine ⟨rfl, ?_, ?_⟩ <;> simp [create_graph_spec]

theorem c6_mix_duration_first_witness :
    (amix_duration_first [1, 2, 3] [10]).length = 3 ∧
      (amix_duration_first [1, 2, 3] [10]).getD 1 0 = ([1, 2, 3] : List Rat).getD 1 0 :=
  ⟨c6_mix_duration_first.1 [1, 2, 3] [10],
    c6_mix_duration_first.2.1 [1, 2, 3] [10] 1 (by decide)⟩

/-! ### Claims C7 and C8: open failure teardown and close -/

/-- The caller-visible state around an audio context handle: whether
`*audio` is non-null (and then whether its SDL device was opened), the
resource state of the embedded stream, and release counters for the
device and the context allocation. -/
structure AudioHandle where
  handle : Option Bool
  streamState : StreamLedger
  deviceCloses : Nat
  contextFrees : Nat
  deriving DecidableEq, Repr

/-- `oshu_audio_close` (pipeline.c:253): a null handle returns at once;
otherwise close the SDL device when one was opened, close the stream,
free the context and null the caller's handle.  The filter graph is not
touched here — nothing in pipeline.c ever frees it. -/
def oshu_audio_close (st : AudioHandle) : AudioHandle :=
  match st.handle with
  | none => st
  | some deviceOpened =>
    { handle := none,
      streamState := oshu_close_stream st.streamState,
      deviceCloses := st.deviceCloses + (if deviceOpened then 1 else 0),
      contextFrees := st.contextFrees + 1 }

/-- `oshu_audio_open` (pipeline.c:223): allocate the zeroed context
(a failed calloc returns -1 with the handle already null), open the
stream, open the device, build the graph; on any failure after the
allocation run `oshu_audio_close` on the handle and return -1.  The
boolean paired with the handle records whether the SDL device was
opened (device_id nonzero); the final component records whether the
avfilter graph is still allocated when the call returns
(`create_graph` allocates it before any failing step and no code path
frees it). -/
def oshu_audio_open (fuel : Nat) (contextAllocOk : Bool) (env : OpenEnv)
    (deviceOk graphOk : Bool) : Option (Int × AudioHandle × Bool) :=
  if !contextAllocOk then some (-1, ⟨none, emptyLedger, 0, 0⟩, false)
  else
    match oshu_open_stream fuel env with
    | OpenStreamResult.fuelOut => none
    | OpenStreamResult.err l =>
      some (-1, oshu_audio_close ⟨some false, l, 0, 0⟩, false)
    | OpenStreamResult.ok _ l =>
      if !deviceOk then some (-1, oshu_audio_close ⟨some false, l, 0, 0⟩, false)
      else if !graphOk then some (-1, oshu_audio_close ⟨some true, l, 0, 0⟩, true)
      else some (0, ⟨some true, l, 0, 0⟩, true)

/-- A wellformed one-packet source, as seen by `oshu_audio_open`. -/
def envGood7 : OpenEnv :=
  ⟨true, true, some 0, 1, true, true, true, [ReadEvent.packet 0 true [some ⟨3⟩]]⟩

/-- A source without any decodable frame, as seen by
`oshu_audio_open`. -/
def envEmpty7 : OpenEnv := ⟨true, true, some 0, 1, true, true, true, []⟩

/-- Claim C7 (code bug): each failure mode of `oshu_audio_open` leaves
the caller's handle null and returns the single error -1, the stream
resources are released exactly once each and only when non-null, and
the device is closed exactly when it was opened — but on a graph-build
failure the already-allocated filter graph stays allocated with no
owner: neither `create_graph`'s failure path nor `oshu_audio_close`
ever frees `pipeline.graph`, so the teardown leaks it. -/
theorem c7_open_teardown_leaks_graph :
    oshu_audio_open 3 true envGood7 true false =
        some (-1, ⟨none, ⟨false, false, false, 1, 1, 1⟩, 1, 1⟩, true) ∧
      oshu_audio_open 3 true envGood7 false true =
        some (-1, ⟨none, ⟨false, false, false, 1, 1, 1⟩, 0, 1⟩, false) ∧
      oshu_audio_open 2 true envEmpty7 true true =
        some (-1, ⟨none, ⟨false, false, false, 1, 1, 1⟩, 0, 1⟩, false) := by decide

/-- Claim C8: `oshu_audio_close` stops and closes the device when one
was opened, closes the stream, frees the context and nulls the caller's
handle; called on an already-nulled handle it changes nothing and
releases nothing, so closing twice is exactly the same as closing
once. -/
theorem c8_close_idempotent (st : AudioHandle) :
    oshu_audio_close (oshu_audio_close st) = oshu_audio_close st ∧
      (oshu_audio_close st).handle = none ∧
      (st.handle = none → oshu_audio_close st = st) ∧
      (∀ dev, st.handle = some dev →
        (oshu_audio_close st).streamState = oshu_close_stream st.streamState ∧
          (oshu_audio_close st).deviceCloses =
            st.deviceCloses + (if dev then 1 else 0) ∧
          (oshu_audio_close st).contextFrees = st.contextFrees + 1) := by
  rcases st with ⟨h?, l, dc, cf⟩
  rcases h? with - | dev
  · exact ⟨rfl, rfl, fun _ => rfl, fun dev h => by simp at h⟩
  · refine ⟨rfl, rfl, fun h => by simp at h, ?_⟩
    intro dev' h
    obtain rfl : dev = dev' := by simpa [oshu_audio_close] using h
    exact ⟨rfl, rfl, rfl⟩

theorem c8_close_idempotent_witness :
    (oshu_audio_close (oshu_audio_close ⟨some true, ⟨true, true, true, 0, 0, 0⟩, 0, 0⟩) =
        oshu_audio_close ⟨some true, ⟨true, true, true, 0, 0, 0⟩, 0, 0⟩) ∧
      (oshu_audio_close ⟨some true, ⟨true, true, true, 0, 0, 0⟩, 0, 0⟩).streamState =
        oshu_close_stream ⟨true, true, true, 0, 0, 0⟩ :=
  ⟨(c8_close_idempotent ⟨some true, ⟨true, true, true, 0, 0, 0⟩, 0, 0⟩).1,
    ((c8_close_idempotent ⟨some true, ⟨true, true, true, 0, 0, 0⟩, 0, 0⟩).2.2.2
      true rfl).1⟩

end Oshu
